import Mathlib

/-!
Shallow embedding of `ranger/gui/widgets/browserview.py` (the only source file
of this repository) and proofs about the claims C1-C10.

Modelling conventions:
* Python floats are modelled as exact rationals (`ℚ`); `int(q)` (truncation
  toward zero) is modelled on the exact value.
* Grid coordinates and sizes are `Int` (Python ints).
* A Python statement sequence that can raise becomes a function returning
  `State × Option RErr`: the returned state carries every mutation performed
  before the raise, and the error component is the exception (if any) that
  propagates to the caller.
* `BrowserColumn`, `Pager` and the curses surface are external collaborators:
  a column is modelled by its geometry, its level, its visibility flag and the
  (externally determined) answer of `has_preview()`, stored as a field; the
  pager by its flags and geometry plus two booleans recording that its
  `open()` / `close()` hooks were invoked.  Drawing primitives are modelled as
  emitted `DrawCmd` values instead of screen mutations.
* `self.main_column` is an alias into `self.columns`; it is modelled as an
  index (`Option Nat`) into the column list.
-/

namespace Ranger

/-- Python `int(q)` on an exact rational value: truncation toward zero.
Implemented on numerator/denominator so that it evaluates by kernel
reduction (the denominator of a `ℚ` is always positive). -/
def pyInt (q : ℚ) : Int :=
  Int.tdiv q.num (q.den : Int)

/-- Exact value of Python `int(ratio * wid)` (browserview.py line 297):
`ratio * wid = (ratio.num * wid) / ratio.den`, truncated toward zero. -/
def preWid (W : Int) (r : ℚ) : Int :=
  Int.tdiv (r.num * W) (r.den : Int)

/-- External collaborator `BrowserColumn`: geometry set by `resize`, the
directory `level` given at construction, the `visible` flag, the result of the
external query `has_preview()` frozen as a field, and the two flags set on the
designated main column. -/
structure Column where
  y : Int := 0
  x : Int := 0
  hei : Int := 0
  wid : Int := 0
  level : Int := 0
  visible : Bool := true
  hasPreview : Bool := true
  mainColumn : Bool := false
  displayInfostring : Bool := false
deriving DecidableEq

/-- External collaborator `Pager`: visibility/focus flags, geometry, and two
booleans recording that the content hooks `open()` / `close()` ran. -/
structure Pager where
  visible : Bool := false
  focused : Bool := false
  y : Int := 0
  x : Int := 0
  hei : Int := 0
  wid : Int := 0
  openInvoked : Bool := false
  closeInvoked : Bool := false
deriving DecidableEq

/-- The configuration options consumed by the view (spec section 6). -/
structure Settings where
  perspective : String := "miller"
  column_ratios : List ℚ := []
  draw_borders : Bool := false
  collapse_preview : Bool := true
  show_hidden_bookmarks : Bool := false
  draw_bookmark_borders : Bool := false
deriving DecidableEq

/-- Exceptions that can propagate out of the modelled methods. -/
inductive RErr where
  | invalidPerspective (which : String)
  | indexError
  | attributeError
  | typeError
deriving DecidableEq

/-- State of a `BrowserView` object.  Class-attribute defaults of the source
(lines 34-41) are the field defaults; `main_column` is an index into
`columns`; `bookmarks` models `self.fm.bookmarks` as (key, path) pairs. -/
structure BrowserView where
  settings : Settings := {}
  preview : Bool := true
  ratios : Option (List ℚ) := none
  stretch_ratios : Option (List ℚ) := none
  is_collapsed : Bool := false
  draw_bookmarks : Bool := false
  need_clear : Bool := false
  need_redraw : Bool := false
  pager : Option Pager := none
  columns : List Column := []
  main_column : Option Nat := none
  y : Int := 0
  x : Int := 0
  hei : Int := 0
  wid : Int := 0
  bookmarks : List (String × String) := []
deriving DecidableEq

/-- `ALLOWED_PERSPECTIVES = "miller", "dual", "long"` (line 31). -/
def ALLOWED_PERSPECTIVES : List String := ["miller", "dual", "long"]

/-- Truthiness of an optional Python tuple (`None` and `()` are falsy). -/
def truthyRatios : Option (List ℚ) → Bool
  | none => false
  | some l => !l.isEmpty

/-- `_collapse` (lines 255-259): `collapse_preview and self.preview and
self.columns and not self.columns[-1].has_preview() and self.stretch_ratios`,
coerced to a boolean. -/
def _collapse (st : BrowserView) : Bool :=
  st.settings.collapse_preview && st.preview && (!st.columns.isEmpty) &&
    (match st.columns.getLast? with
     | some c => !c.hasPreview
     | none => false) &&
    truthyRatios st.stretch_ratios

/-- Ratio sequence walked by `_resize_miller` (lines 289-292): the stretch
ratios when collapsed, the normal ratios otherwise. -/
def millerGen (st : BrowserView) (rs : List ℚ) : List ℚ :=
  if _collapse st then st.stretch_ratios.getD [] else rs

/-- Border padding of `_resize_miller` (line 285): one cell when borders are
drawn, else zero. -/
def padOf (st : BrowserView) : Int :=
  if st.settings.draw_borders then 1 else 0

/-- Result of the `_resize_miller` loop: the column list, the pager, the
final `left` cursor and the exception (if one escaped). -/
structure MillerRes where
  cols : List Column
  pg : Option Pager
  left : Int
  err : Option RErr
deriving DecidableEq

/-- Loop body of `_resize_miller` (lines 296-312), walked in lockstep over the
ratio list and the column list (`enumerate` yields consecutive indices from 0,
so position and index agree; a missing column at the current index is the
uncaught `IndexError` of `self.columns[i]`, and a missing pager at index
`last_i - 1` is the uncaught `AttributeError` of `self.pager.resize`).
Mutations performed before a raise are kept, and the raise aborts the loop. -/
def millerLoop (lastI pad hei W : Int) :
    List ℚ → Int → Int → List Column → Option Pager → MillerRes
  | [], _i, left, cols, pg => ⟨cols, pg, left, none⟩
  | r :: rest, i, left, cols, pg =>
    if i = lastI - 1 ∧ pg = none then ⟨cols, pg, left, some RErr.attributeError⟩
    else
      let pg' : Option Pager :=
        if i = lastI - 1 then
          pg.map (fun p =>
            { p with
              y := pad
              x := left
              hei := hei - pad * 2
              wid := max 1 (W - left - pad) })
        else pg
      let wid : Int := if i = lastI then W - left + 1 - pad else preWid W r
      match cols with
      | [] => ⟨[], pg', left, some RErr.indexError⟩
      | c :: cs =>
        let c' :=
          { c with
            y := pad
            x := left
            hei := hei - pad * 2
            wid := max 1 (wid - 1) }
        let res := millerLoop lastI pad hei W rest (i + 1) (left + wid) cs pg'
        ⟨c' :: res.cols, res.pg, res.left, res.err⟩

/-- `_resize_miller` (lines 282-312).  Uses `self.wid` for the widths and the
`hei` argument for the heights, exactly as the source does; `enumerate(None)`
(ratios never initialised) is the uncaught `TypeError`. -/
def _resize_miller (st : BrowserView) (_y _x hei _wid : Int) :
    BrowserView × Option RErr :=
  let pad : Int := padOf st
  let st1 := { st with is_collapsed := _collapse st }
  match st.ratios with
  | none => (st1, some RErr.typeError)
  | some rs =>
    let gen := millerGen st rs
    let lastI : Int := (rs.length : Int) - 1
    let res := millerLoop lastI pad hei st.wid gen 0 pad st.columns st.pager
    ({ st1 with columns := res.cols, pager := res.pg }, res.err)

/-- `_resize_long` (lines 279-280): the single column gets the full viewport;
a missing column 0 is an uncaught `IndexError`. -/
def _resize_long (st : BrowserView) : BrowserView × Option RErr :=
  match st.columns with
  | c :: rest =>
    let c0 := { c with y := 0, x := 0, hei := st.hei, wid := st.wid }
    ({ st with columns := c0 :: rest }, none)
  | [] => (st, some RErr.indexError)

/-- `_resize_dual` (lines 273-277): `halfwid = self.wid / 2 - 1` (Python 2
floor division) and two side-by-side columns; `columns[1]` missing raises
after `columns[0]` was already resized. -/
def _resize_dual (st : BrowserView) : BrowserView × Option RErr :=
  let halfwid : Int := Int.fdiv st.wid 2 - 1
  match st.columns with
  | c0 :: c1 :: rest =>
    let d0 := { c0 with y := 0, x := 0, hei := st.hei, wid := halfwid }
    let d1 := { c1 with y := 0, x := 0 + halfwid + 1, hei := st.hei, wid := halfwid }
    ({ st with columns := d0 :: d1 :: rest }, none)
  | [c0] =>
    let d0 := { c0 with y := 0, x := 0, hei := st.hei, wid := halfwid }
    ({ st with columns := [d0] }, some RErr.indexError)
  | [] => (st, some RErr.indexError)

/-- `resize` (lines 261-271): `DisplayableContainer.resize` stores the new
geometry, then the perspective (with unrecognized values falling back to
miller) selects the layout algorithm. -/
def resize (st : BrowserView) (y x hei wid : Int) : BrowserView × Option RErr :=
  let st := { st with y := y, x := x, hei := hei, wid := wid }
  let which := if ALLOWED_PERSPECTIVES.contains st.settings.perspective then
      st.settings.perspective else "miller"
  if which = "miller" then _resize_miller st y x hei wid
  else if which = "long" then _resize_long st
  else _resize_dual st

/-- `destroy_perspective` (lines 65-74): destroy and drop all columns, clear
the main-column reference, destroy and clear the pager.  (`column.destroy()`,
`remove_child` and `pager.destroy()` are external bookkeeping.) -/
def destroy_perspective (st : BrowserView) : BrowserView :=
  { st with columns := [], main_column := none, pager := none }

/-- A freshly constructed `BrowserColumn(self.win, level)`.  Its
`has_preview()` answer is an external query; a fresh column is modelled as
reporting a preview. -/
def newColumn (level : Int) : Column :=
  { level := level }

/-- Mark the column at the given index as the main column
(`display_infostring = True`, `main_column = True`, lines 131-132). -/
def setMainFlags : List Column → Nat → List Column
  | [], _ => []
  | c :: rest, 0 => { c with displayInfostring := true, mainColumn := true } :: rest
  | c :: rest, n + 1 => c :: setMainFlags rest n

/-- `_create_perspective_dual` (lines 86-94): append two fresh columns, the
first one is the main column, then resize. -/
def _create_perspective_dual (st : BrowserView) : BrowserView × Option RErr :=
  let i := st.columns.length
  let st :=
    { st with
      columns := st.columns ++ [newColumn 0, newColumn 0]
      main_column := some i }
  resize st st.y st.x st.hei st.wid

/-- `_create_perspective_long` (lines 96-101): a single fresh column which is
the main column, then resize. -/
def _create_perspective_long (st : BrowserView) : BrowserView × Option RErr :=
  let st := { st with columns := [newColumn 0], main_column := some 0 }
  resize st st.y st.x st.hei st.wid

/-- Normalization of the configured ratios (lines 108-110):
`x / float(sum(ratios))` for each entry. -/
def normalizeRatios (rs : List ℚ) : List ℚ :=
  rs.map (fun v => v / rs.sum)

/-- The stretch variant (lines 112-115): the normalized ratios with the last
two replaced by `(r[-2] + r[-1]*0.9, r[-1]*0.1)`; `0.9` and `0.1` are the
exact rationals 9/10 and 1/10. -/
def stretchOf (norm : List ℚ) : List ℚ :=
  norm.take (norm.length - 2) ++
    [norm.getD (norm.length - 2) 0 + norm.getD (norm.length - 1) 0 * (9 / 10),
     norm.getD (norm.length - 1) 0 * (1 / 10)]

/-- `_create_perspective_miller` (lines 103-134): create a hidden pager;
normalize the configured ratios (`x / float(sum(ratios))`); derive the
stretch variant when at least two ratios exist (`0.9` and `0.1` are modelled
as the exact rationals 9/10 and 1/10); create one column per ratio at
consecutive levels `level + offset`; designate the main column
(`columns[-2]` when a preview pane is enabled else `columns[-1]`, with
`IndexError` giving `None`).  Note that when fewer than two ratios are
configured the previous value of `stretch_ratios` is left in place. -/
def millerPreState (st : BrowserView) : BrowserView :=
  let rs := st.settings.column_ratios
  let norm := normalizeRatios rs
  let stretch := if 2 ≤ norm.length then some (stretchOf norm) else st.stretch_ratios
  let offset : Int := 1 - (rs.length : Int) + (if st.preview then 1 else 0)
  let cols := (List.range rs.length).map (fun (lvl : Nat) => newColumn ((lvl : Int) + offset))
  let mi : Option Nat :=
    if st.preview then (if 2 ≤ cols.length then some (cols.length - 2) else none)
    else (if 1 ≤ cols.length then some (cols.length - 1) else none)
  match mi with
  | none =>
    { st with pager := some {}, ratios := some norm, stretch_ratios := stretch,
              columns := cols, main_column := none }
  | some i =>
    { st with pager := some {}, ratios := some norm, stretch_ratios := stretch,
              columns := setMainFlags cols i, main_column := some i }

/-- `_create_perspective_miller` continued: the state mutations above followed
by the final `self.resize(self.y, self.x, self.hei, self.wid)` (line 134). -/
def _create_perspective_miller (st : BrowserView) : BrowserView × Option RErr :=
  let st := millerPreState st
  resize st st.y st.x st.hei st.wid

/-- `create_perspective` (lines 76-84): unrecognized identifiers fall back to
the first allowed perspective (miller). -/
def create_perspective (st : BrowserView) (which : String) : BrowserView × Option RErr :=
  let w := if ALLOWED_PERSPECTIVES.contains which then which else "miller"
  if w = "miller" then _create_perspective_miller st
  else if w = "dual" then _create_perspective_dual st
  else _create_perspective_long st

/-- The (previous, value) payload of a `setopt.perspective` notification. -/
structure PerspectiveSignal where
  previous : String
  value : String
deriving DecidableEq

/-- `change_perspective` (lines 57-63): a no-op when the value did not
change; a full destroy/create cycle for a recognized value; an exception
(`InvalidPerspective` in the spec's taxonomy) raised before any mutation for
an unrecognized one. -/
def change_perspective (st : BrowserView) (sig : PerspectiveSignal) :
    BrowserView × Option RErr :=
  if sig.previous ≠ sig.value then
    if ALLOWED_PERSPECTIVES.contains sig.value then
      create_perspective (destroy_perspective st) sig.value
    else
      (st, some (RErr.invalidPerspective sig.value))
  else (st, none)

/-- `request_clear` (lines 148-149). -/
def request_clear (st : BrowserView) : BrowserView :=
  { st with need_clear := true }

/-- `change_ratios` (lines 136-142): unwrap a `Signal` argument (the unwrapped
value is then never used) and rebuild the miller perspective if it is the
configured one. -/
def change_ratios (st : BrowserView) : BrowserView × Option RErr :=
  if st.settings.perspective = "miller" then
    create_perspective (destroy_perspective st) "miller"
  else (st, none)

/-- Effect of changing the `column_ratios` option: the settings store updates
the value and emits `setopt.column_ratios`, whose only handler bound in
`__init__` is `self.request_clear` (line 53). -/
def onSetoptColumnRatios (st : BrowserView) (value : List ℚ) : BrowserView :=
  request_clear { st with settings := { st.settings with column_ratios := value } }

/-- Python `columns[-k].visible = v` (index `len - k`). -/
def setVisibleAt : List Column → Nat → Bool → List Column
  | [], _, _ => []
  | c :: rest, 0, v => { c with visible := v } :: rest
  | c :: rest, n + 1, v => c :: setVisibleAt rest n v

/-- Guarded negative indexing: `columns[-k]` raises `IndexError` (modelled as
`none`) when the list has fewer than `k` elements. -/
def setLastVisible (cols : List Column) (k : Nat) (v : Bool) : Option (List Column) :=
  if 1 ≤ k ∧ k ≤ cols.length then some (setVisibleAt cols (cols.length - k) v) else none

/-- The `try: columns[-1].visible = v; columns[-2].visible = v except
IndexError: pass` block of `open_pager`/`close_pager` (lines 327-331 and
338-342): the first assignment persists even when the second one raises. -/
def hideLastTwo (cols : List Column) (v : Bool) : List Column :=
  match setLastVisible cols 1 v with
  | none => cols
  | some cols1 =>
    match setLastVisible cols1 2 v with
    | none => cols1
    | some cols2 => cols2

/-- `open_pager` (lines 322-331); `self.pager.visible` on a `None` pager is an
uncaught `AttributeError`. -/
def open_pager (st : BrowserView) : BrowserView × Option RErr :=
  match st.pager with
  | none => (st, some RErr.attributeError)
  | some p =>
    ({ st with
        pager := some { p with visible := true, focused := true, openInvoked := true },
        need_clear := true,
        columns := hideLastTwo st.columns false }, none)

/-- `close_pager` (lines 333-342). -/
def close_pager (st : BrowserView) : BrowserView × Option RErr :=
  match st.pager with
  | none => (st, some RErr.attributeError)
  | some p =>
    ({ st with
        pager := some { p with visible := false, focused := false, closeInvoked := true },
        need_clear := true,
        columns := hideLastTwo st.columns true }, none)

/-- Drawing primitives issued against the curses surface. -/
inductive DrawCmd where
  | erase
  | hline (y x n : Int)
  | vline (y x n : Int)
  | addch (y x : Int)
  | addstr (y x : Int) (s : String)
  | addnstr (y x : Int) (s : String) (n : Int)
deriving DecidableEq

/-- Leading scan of `_draw_borders` (lines 215-219): advance `left_start`
past every leading column without a preview, stop at the first that has
one. -/
def scanLeftStart : List Column → Int → Int
  | [], acc => acc
  | c :: rest, acc =>
    if !c.hasPreview then scanLeftStart rest (c.x + c.wid) else acc

/-- Trailing scan of `_draw_borders` (lines 221-225), walking the reversed
column list. -/
def scanRightEnd : List Column → Int → Int
  | [], acc => acc
  | c :: rest, acc =>
    if !c.hasPreview then scanRightEnd rest (c.x - 1) else acc

/-- Python `not self.pager or not self.pager.visible`. -/
def pagerHidden (st : BrowserView) : Bool :=
  match st.pager with
  | none => true
  | some p => !p.visible

/-- The `(left_start, right_end)` pair computed by `_draw_borders`
(lines 212-227): the trailing scan runs only when no pager is visible, and
`right_end` is reset to `wid - 1` when the scan crossed `left_start`. -/
def borderExtent (st : BrowserView) : Int × Int :=
  let left_start := scanLeftStart st.columns 0
  let right_end :=
    if pagerHidden st then
      let r := scanRightEnd st.columns.reverse (st.wid - 1)
      if r < left_start then st.wid - 1 else r
    else st.wid - 1
  (left_start, right_end)

/-- Per-column separator loop of `_draw_borders` (lines 234-248): columns
without a preview are skipped; the main column stops the loop with a single
separator at `right_end` when the pager is visible; drawing failures are
swallowed (the commands are still issued). -/
def columnSeps (pagerVisible : Bool) (re hei : Int) : List Column → List DrawCmd
  | [] => []
  | c :: rest =>
    if !c.hasPreview then columnSeps pagerVisible re hei rest
    else if c.mainColumn && pagerVisible then [DrawCmd.vline 1 re (hei - 2)]
    else [DrawCmd.vline 1 (c.x + c.wid) (hei - 2),
          DrawCmd.addch 0 (c.x + c.wid), DrawCmd.addch (hei - 1) (c.x + c.wid)]
         ++ columnSeps pagerVisible re hei rest

/-- Commands issued by `_draw_borders` (lines 208-253). -/
def _draw_borders_cmds (st : BrowserView) : List DrawCmd :=
  let ls := (borderExtent st).1
  let re := (borderExtent st).2
  [DrawCmd.hline 0 ls (re - ls), DrawCmd.hline (st.hei - 1) ls (re - ls),
   DrawCmd.vline 1 ls (st.hei - 2)]
  ++ columnSeps (!pagerHidden st) re st.hei st.columns
  ++ [DrawCmd.addch 0 ls, DrawCmd.addch (st.hei - 1) ls,
      DrawCmd.addch 0 re, DrawCmd.addch (st.hei - 1) re]

/-- Byte-lexicographic `<` on strings (Python 2 `str` comparison), written on
the character lists so that it evaluates by kernel reduction. -/
def keyLtb : List Char → List Char → Bool
  | [], [] => false
  | [], _ :: _ => true
  | _ :: _, [] => false
  | a :: as, b :: bs =>
    if a < b then true else if b < a then false else keyLtb as bs

/-- Key order used for the sorted bookmark listing. -/
def keyLe (a b : String × String) : Bool :=
  !keyLtb b.1.data a.1.data

/-- Stable insertion of a bookmark into a key-sorted list (an entry moves
before another only when its key is strictly smaller). -/
def bkInsert (x : String × String) : List (String × String) → List (String × String)
  | [] => [x]
  | y :: ys => if keyLtb x.1.data y.1.data then x :: y :: ys else y :: bkInsert x ys

/-- Python `sorted(...)` on (key, mark) pairs, modelled as a stable insertion
sort by key.  (In the source the keys are the distinct keys of the bookmark
dict, so ties never arise and the key order determines the result.) -/
def pysorted (l : List (String × String)) : List (String × String) :=
  l.foldr bkInsert []

/-- Python `'/.' in path`. -/
def hasHiddenMarker (path : String) : Bool :=
  path.data.tails.any (fun t => ("/.").data.isPrefixOf t)

/-- `sorted_bookmarks` of `_draw_bookmarks` (lines 182-183): the bookmark
collection filtered by the hidden-segment rule and sorted by key. -/
def sortedBookmarks (st : BrowserView) : List (String × String) :=
  pysorted (st.bookmarks.filter
    (fun it => st.settings.show_hidden_bookmarks || !hasHiddenMarker it.2))

/-- The `generator()` of `_draw_bookmarks` (lines 185-186):
`zip(range(self.hei - 1), sorted_bookmarks)`. -/
def bookmarkRows (st : BrowserView) : List (Nat × (String × String)) :=
  (List.range (st.hei - 1).toNat).zip (sortedBookmarks st)

/-- A run of `maxlen` spaces. -/
def bookmarkWhitespace (maxlen : Int) : String :=
  String.mk (List.replicate maxlen.toNat ' ')

/-- `_draw_bookmarks` (lines 178-206): set `need_clear` first, then return
without drawing when the line/entry pairing is empty (`max` over an empty
generator raises `ValueError`, caught by the `except ValueError: return`);
otherwise clear and write each line and optionally draw the listing box. -/
def _draw_bookmarks (st : BrowserView) : BrowserView × List DrawCmd :=
  let st1 := { st with need_clear := true }
  let rows := bookmarkRows st
  match rows with
  | [] => (st1, [])
  | _ =>
    let maxlen0 : Int := (rows.map (fun it => (it.2.2.length : Int))).foldr max 0
    let maxlen : Int := min (maxlen0 + 5) st.wid
    let body := (rows.map (fun it =>
        [DrawCmd.addstr (it.1 : Int) 0 (bookmarkWhitespace maxlen),
         DrawCmd.addnstr (it.1 : Int) 0 (" " ++ it.2.1 ++ ": " ++ it.2.2) st.wid])).flatten
    let lastLine : Int := (rows.map (fun it => (it.1 : Int))).getLastD 0
    let borders :=
      if st.settings.draw_bookmark_borders then
        [DrawCmd.hline (lastLine + 1) 0 maxlen] ++
        (if maxlen < st.wid then
          [DrawCmd.vline 0 maxlen (lastLine + 1), DrawCmd.addch (lastLine + 1) maxlen]
         else [])
      else []
    (st1, body ++ borders)

/-- `draw` (lines 151-161): the bookmark overlay replaces normal drawing;
otherwise a pending `need_clear` erases the window and forces `need_redraw`,
children paint (external), and borders are drawn when enabled. -/
def draw (st : BrowserView) : BrowserView × List DrawCmd :=
  if st.draw_bookmarks then _draw_bookmarks st
  else
    let step : BrowserView × List DrawCmd :=
      if st.need_clear then
        ({ st with need_redraw := true, need_clear := false }, [DrawCmd.erase])
      else (st, [])
    (step.1, step.2 ++ (if step.1.settings.draw_borders then _draw_borders_cmds step.1 else []))

/-! ### Helper lemmas -/

/-- Both branches of `_draw_bookmarks` return the state with `need_clear`
set (line 180 runs before the emptiness check). -/
theorem draw_bookmarks_state (st : BrowserView) :
    (_draw_bookmarks st).1 = { st with need_clear := true } := by
  unfold _draw_bookmarks
  cases bookmarkRows st <;> rfl

/-! ### C2 -/

/-- C2: a perspective-change notification whose requested value differs from
the previous one and is none of miller/dual/long makes `change_perspective`
signal the invalid-perspective error to the caller and return the state
completely unchanged: no destroy or create happens before the raise, so the
panel set, the main-column reference, the pager and the active perspective
are untouched. -/
theorem c2_invalid_perspective (st : BrowserView) (sig : PerspectiveSignal)
    (hne : sig.previous ≠ sig.value)
    (h1 : sig.value ≠ "miller") (h2 : sig.value ≠ "dual") (h3 : sig.value ≠ "long") :
    change_perspective st sig = (st, some (RErr.invalidPerspective sig.value)) := by
  have hc : sig.value ∉ ALLOWED_PERSPECTIVES := by
    simp [ALLOWED_PERSPECTIVES, h1, h2, h3]
  simp [change_perspective, hne, hc]

/-- Witness for C2 at a concrete unrecognized value. -/
theorem c2_invalid_perspective_witness :
    change_perspective {} ⟨"miller", "grid"⟩ =
      ({}, some (RErr.invalidPerspective "grid")) :=
  c2_invalid_perspective {} ⟨"miller", "grid"⟩ (by decide) (by decide) (by decide)
    (by decide)

/-! ### C3 -/

/-- C3: the collapse flag is true iff all five conditions hold
(`collapse_preview` enabled, preview pane enabled, non-empty column list,
rightmost column without a preview, and a stretch ratio set that exists and
is non-empty); and whenever it is false the miller layout walks the normal
ratios rather than the stretch ratios. -/
theorem c3_collapse_iff (st : BrowserView) :
    (_collapse st = true ↔
      st.settings.collapse_preview = true ∧ st.preview = true ∧ st.columns ≠ [] ∧
      (∀ c, st.columns.getLast? = some c → c.hasPreview = false) ∧
      (∃ l, st.stretch_ratios = some l ∧ l ≠ [])) ∧
    (_collapse st = false → ∀ rs, millerGen st rs = rs) := by
  constructor
  · cases hL : st.columns.getLast? with
    | none =>
      have hnil : st.columns = [] := List.getLast?_eq_none_iff.mp hL
      simp [_collapse, hnil]
    | some c =>
      have hne : st.columns ≠ [] := by
        intro hh
        rw [hh] at hL
        exact Option.noConfusion hL
      have hisE : st.columns.isEmpty = false := by
        cases hcc : st.columns with
        | nil => exact absurd hcc hne
        | cons a t => rfl
      cases hS : st.stretch_ratios with
      | none =>
        simp [_collapse, hL, hS, truthyRatios, hne]
      | some l =>
        simp only [_collapse, hL, hS, truthyRatios, Bool.and_eq_true,
          Bool.not_eq_true']
        constructor
        · rintro ⟨⟨⟨⟨hcp, hpv⟩, _⟩, hnp⟩, hl⟩
          refine ⟨hcp, hpv, hne, ?_, l, rfl, ?_⟩
          · intro c2 hc2
            cases hc2
            exact hnp
          · intro hlnil
            rw [hlnil] at hl
            exact absurd hl (by simp)
        · rintro ⟨hcp, hpv, _, hnp, l2, hl2, hlne⟩
          have hll : l = l2 := by injection hl2
          subst hll
          refine ⟨⟨⟨⟨hcp, hpv⟩, hisE⟩, hnp c rfl⟩, ?_⟩
          cases hxx : l with
          | nil => exact absurd hxx hlne
          | cons a t => rfl
  · intro h rs
    simp [millerGen, h]

/-- Concrete collapsing state used by the C3 witness. -/
def st3w : BrowserView :=
  { settings := { collapse_preview := true }, preview := true,
    columns := [{ hasPreview := false }],
    stretch_ratios := some [1] }

/-- Witness for C3: a concrete state satisfying all five conditions
collapses. -/
theorem c3_collapse_iff_witness : _collapse st3w = true :=
  (c3_collapse_iff st3w).1.mpr
    ⟨rfl, rfl, by decide, by rintro c hc; cases hc; rfl, [1], rfl, by decide⟩

/-! ### C5 -/

/-- C5: in the border renderer, `left_start` is advanced past every leading
column without a preview; `right_end` is scanned from the right only when no
pager is visible and is reset to `wid - 1` whenever the scan yields
`right_end < left_start`; in particular for columns
[no-preview, has-preview, no-preview] with the pager hidden, `left_start` is
the right edge of column 0 and `right_end` is column 2's left edge minus
one. -/
theorem c5_border_extent :
    (∀ (st : BrowserView) (c0 c1 c2 : Column),
      st.columns = [c0, c1, c2] →
      c0.hasPreview = false → c1.hasPreview = true → c2.hasPreview = false →
      pagerHidden st = true →
      c0.x + c0.wid ≤ c2.x - 1 →
      borderExtent st = (c0.x + c0.wid, c2.x - 1)) ∧
    (∀ st : BrowserView, pagerHidden st = true →
      scanRightEnd st.columns.reverse (st.wid - 1) < scanLeftStart st.columns 0 →
      (borderExtent st).2 = st.wid - 1) ∧
    (∀ st : BrowserView, pagerHidden st = false →
      (borderExtent st).2 = st.wid - 1) := by
  refine ⟨?_, ?_, ?_⟩
  · intro st c0 c1 c2 hcols h0 h1 h2 hp hle
    have hls : scanLeftStart st.columns 0 = c0.x + c0.wid := by
      simp [hcols, scanLeftStart, h0, h1]
    have hrs : scanRightEnd st.columns.reverse (st.wid - 1) = c2.x - 1 := by
      simp [hcols, scanRightEnd, h2, h1]
    simp [borderExtent, hp, hls, hrs, not_lt.mpr hle]
  · intro st hp hlt
    simp [borderExtent, hp, hlt]
  · intro st hp
    simp [borderExtent, hp]

/-- Concrete three-column state used by the C5 witness. -/
def st5w : BrowserView :=
  { columns := [{ x := 0, wid := 5, hasPreview := false },
                { x := 5, wid := 4, hasPreview := true },
                { x := 10, wid := 3, hasPreview := false }],
    pager := none, wid := 14 }

/-- Witness for C5 at a concrete three-column state. -/
theorem c5_border_extent_witness : borderExtent st5w = (5, 9) :=
  c5_border_extent.1 st5w
    { x := 0, wid := 5, hasPreview := false }
    { x := 5, wid := 4, hasPreview := true }
    { x := 10, wid := 3, hasPreview := false }
    rfl rfl rfl rfl rfl (by decide)

/-! ### C10 -/

/-- C10: every invocation of the bookmark-overlay draw sets `need_clear`
before the emptiness check (so even an empty filtered collection leaves the
flag set), and the next draw pass that is not in bookmark mode starts by
erasing the window and setting `need_redraw`. -/
theorem c10_bookmark_need_clear :
    (∀ st : BrowserView, (_draw_bookmarks st).1.need_clear = true) ∧
    (∀ st : BrowserView, sortedBookmarks st = [] →
      (_draw_bookmarks st).2 = [] ∧ (_draw_bookmarks st).1.need_clear = true) ∧
    (∀ st : BrowserView, st.draw_bookmarks = true → (draw st).1.need_clear = true) ∧
    (∀ st : BrowserView, st.draw_bookmarks = false → st.need_clear = true →
      (draw st).2.head? = some DrawCmd.erase ∧ (draw st).1.need_redraw = true ∧
      (draw st).1.need_clear = false) ∧
    (∀ st : BrowserView,
      (draw { (_draw_bookmarks st).1 with draw_bookmarks := false }).2.head? =
        some DrawCmd.erase) := by
  have hst : ∀ st : BrowserView, (_draw_bookmarks st).1.need_clear = true := by
    intro st
    rw [draw_bookmarks_state]
  refine ⟨hst, ?_, ?_, ?_, ?_⟩
  · intro st h
    have hrows : bookmarkRows st = [] := by
      simp [bookmarkRows, h]
    exact ⟨by simp [_draw_bookmarks, hrows], hst st⟩
  · intro st h
    simp only [draw, h, if_pos]
    exact hst st
  · intro st hb hc
    simp [draw, hb, hc]
  · intro st
    rw [draw_bookmarks_state]
    simp [draw]

/-- Witness for C10: a state with bookmark mode off and a pending clear
erases first. -/
theorem c10_bookmark_need_clear_witness :
    (draw { draw_bookmarks := false, need_clear := true }).2.head? =
      some DrawCmd.erase :=
  (c10_bookmark_need_clear.2.2.2.1 { draw_bookmarks := false, need_clear := true }
    rfl rfl).1

/-! ### C6 -/

theorem setVisibleAt_append (init rest : List Column) (n : Nat) (v : Bool) :
    setVisibleAt (init ++ rest) (init.length + n) v = init ++ setVisibleAt rest n v := by
  induction init with
  | nil => simp
  | cons c cs ih =>
    have harith : (c :: cs).length + n = cs.length + n + 1 := by
      simp [List.length_cons]
      omega
    rw [List.cons_append, harith]
    simp only [setVisibleAt]
    rw [ih]
    simp

theorem hideLastTwo_nil (v : Bool) : hideLastTwo [] v = [] := by
  simp [hideLastTwo, setLastVisible]

theorem hideLastTwo_single (a : Column) (v : Bool) :
    hideLastTwo [a] v = [{ a with visible := v }] := by
  simp [hideLastTwo, setLastVisible, setVisibleAt]

theorem hideLastTwo_pair (init : List Column) (a b : Column) (v : Bool) :
    hideLastTwo (init ++ [a, b]) v =
      init ++ [{ a with visible := v }, { b with visible := v }] := by
  have hlen : (init ++ [a, b]).length = init.length + 2 := by simp
  have hc1 : 1 ≤ 1 ∧ 1 ≤ (init ++ [a, b]).length := by
    refine ⟨Nat.le_refl 1, ?_⟩
    rw [hlen]
    omega
  have h1 : setLastVisible (init ++ [a, b]) 1 v =
      some (init ++ [a, { b with visible := v }]) := by
    unfold setLastVisible
    rw [if_pos hc1]
    have hidx : (init ++ [a, b]).length - 1 = init.length + 1 := by
      rw [hlen]
      omega
    rw [hidx, setVisibleAt_append init [a, b] 1 v]
    rfl
  have hlen2 : (init ++ [a, { b with visible := v }]).length = init.length + 2 := by simp
  have hc2 : 1 ≤ 2 ∧ 2 ≤ (init ++ [a, { b with visible := v }]).length := by
    refine ⟨by omega, ?_⟩
    rw [hlen2]
    omega
  have h2 : setLastVisible (init ++ [a, { b with visible := v }]) 2 v =
      some (init ++ [{ a with visible := v }, { b with visible := v }]) := by
    unfold setLastVisible
    rw [if_pos hc2]
    have hidx : (init ++ [a, { b with visible := v }]).length - 2 = init.length + 0 := by
      rw [hlen2]
      omega
    rw [hidx, setVisibleAt_append init [a, { b with visible := v }] 0 v]
    rfl
  simp only [hideLastTwo, h1, h2]

/-- C6 counterexample state: a single panel that is already invisible before
the pager opens. -/
def st6c : BrowserView :=
  { pager := some {}, columns := [{ visible := false }] }

/-- C6 is refuted as stated: closing the pager does not restore the panels'
prior visibility — it makes them visible unconditionally.  Here the single
panel was invisible before `open_pager` and ends up visible after
`close_pager`. -/
theorem c6_pager_counterexample :
    ((close_pager (open_pager st6c).1).1.columns.map (fun c => c.visible)) = [true] ∧
    (st6c.columns.map (fun c => c.visible)) = [false] ∧
    (close_pager (open_pager st6c).1).1.columns ≠ st6c.columns := by decide

/-- C6 (amended): opening the pager marks it visible and focused, requests a
clear, invokes its open hook, and hides exactly the last two panels (or fewer
when fewer exist, the index error being swallowed); closing marks it
invisible and unfocused, requests a clear, invokes its close hook, and makes
the last two panels visible unconditionally — which restores their prior
visibility exactly when they were visible before opening. -/
theorem c6_pager_amended (st : BrowserView) (p : Pager) (hp : st.pager = some p) :
    ((open_pager st).2 = none) ∧
    ((open_pager st).1.pager =
      some { p with visible := true, focused := true, openInvoked := true }) ∧
    ((open_pager st).1.need_clear = true) ∧
    (st.columns = [] → (open_pager st).1.columns = []) ∧
    (∀ a, st.columns = [a] →
      (open_pager st).1.columns = [{ a with visible := false }]) ∧
    (∀ init a b, st.columns = init ++ [a, b] →
      (open_pager st).1.columns =
        init ++ [{ a with visible := false }, { b with visible := false }]) ∧
    ((close_pager (open_pager st).1).2 = none) ∧
    ((close_pager (open_pager st).1).1.pager =
      some { p with visible := false, focused := false,
                    openInvoked := true, closeInvoked := true }) ∧
    ((close_pager (open_pager st).1).1.need_clear = true) ∧
    (∀ init a b, st.columns = init ++ [a, b] → a.visible = true → b.visible = true →
      (close_pager (open_pager st).1).1.columns = st.columns) := by
  have hopen : open_pager st =
      ({ st with
          pager := some { p with visible := true, focused := true, openInvoked := true },
          need_clear := true,
          columns := hideLastTwo st.columns false }, none) := by
    unfold open_pager
    rw [hp]
  have hclose : close_pager (open_pager st).1 =
      ({ st with
          pager := some { p with visible := false, focused := false, openInvoked := true, closeInvoked := true }
          need_clear := true
          columns := hideLastTwo (hideLastTwo st.columns false) true }, none) := by
    rw [hopen]
    unfold close_pager
    rfl
  refine ⟨by rw [hopen], by rw [hopen], by rw [hopen], ?_, ?_, ?_,
    by rw [hclose], by rw [hclose], by rw [hclose], ?_⟩
  · intro h
    rw [hopen]
    simp only [h, hideLastTwo_nil]
  · intro a h
    rw [hopen]
    simp only [h, hideLastTwo_single]
  · intro init a b h
    rw [hopen]
    simp only [h, hideLastTwo_pair]
  · intro init a b h ha hb
    have hA : ({ { a with visible := false } with visible := true } : Column) = a := by
      cases a
      simp_all
    have hB : ({ { b with visible := false } with visible := true } : Column) = b := by
      cases b
      simp_all
    rw [hclose]
    show hideLastTwo (hideLastTwo st.columns false) true = st.columns
    rw [h, hideLastTwo_pair, hideLastTwo_pair, hA, hB]

/-- C6 witness state: two ordinarily visible panels. -/
def st6w : BrowserView := { pager := some {}, columns := [{}, {}] }

/-- Witness for the amended C6: with both panels visible beforehand,
close-after-open restores the column list exactly. -/
theorem c6_pager_amended_witness :
    (close_pager (open_pager st6w).1).1.columns = st6w.columns :=
  (c6_pager_amended st6w {} rfl).2.2.2.2.2.2.2.2.2 [] {} {} rfl rfl rfl

/-! ### C7 -/

theorem millerLoop_cols_length (lastI pad hei W : Int) :
    ∀ (gen : List ℚ) (i left : Int) (cols : List Column) (pg : Option Pager),
      (millerLoop lastI pad hei W gen i left cols pg).cols.length = cols.length := by
  intro gen
  induction gen with
  | nil => intro i left cols pg; rfl
  | cons r rest ih =>
    intro i left cols pg
    simp only [millerLoop]
    split
    · rfl
    · cases cols with
      | nil => simp
      | cons c cs => simp [ih]

theorem resize_miller_cols_length (s : BrowserView) (a b h w : Int) :
    (_resize_miller s a b h w).1.columns.length = s.columns.length := by
  unfold _resize_miller
  split
  · rfl
  · simp [millerLoop_cols_length]

theorem resize_long_cols_length (s : BrowserView) :
    (_resize_long s).1.columns.length = s.columns.length := by
  unfold _resize_long
  split
  next c rest heq => simp [heq]
  next heq => rfl

theorem resize_dual_cols_length (s : BrowserView) :
    (_resize_dual s).1.columns.length = s.columns.length := by
  unfold _resize_dual
  split
  next c0 c1 rest heq => simp [heq]
  next c0 heq => simp [heq]
  next heq => rfl

theorem resize_cols_length (s : BrowserView) (y x hei wid : Int) :
    (resize s y x hei wid).1.columns.length = s.columns.length := by
  unfold resize
  dsimp only
  repeat' split
  all_goals
    first
      | rw [resize_miller_cols_length]
      | rw [resize_long_cols_length]
      | rw [resize_dual_cols_length]

theorem setMainFlags_length : ∀ (cols : List Column) (i : Nat),
    (setMainFlags cols i).length = cols.length := by
  intro cols
  induction cols with
  | nil => intro i; rfl
  | cons c cs ih =>
    intro i
    cases i with
    | zero => rfl
    | succ n => simp [setMainFlags, ih]

theorem millerPreState_cols_length (s : BrowserView) :
    (millerPreState s).columns.length = s.settings.column_ratios.length := by
  unfold millerPreState
  dsimp only
  split <;>
    simp only [setMainFlags_length, List.length_map, List.length_range]

theorem create_miller_cols_length (s : BrowserView) :
    (_create_perspective_miller s).1.columns.length =
      s.settings.column_ratios.length := by
  unfold _create_perspective_miller
  dsimp only
  rw [resize_cols_length]
  exact millerPreState_cols_length s

/-- C7 counterexample state: a miller view with one stale marker column and a
two-ratio configuration. -/
def st7c : BrowserView :=
  { settings := { perspective := "miller", column_ratios := [1, 1],
                  collapse_preview := false },
    columns := [{ level := 99 }], pager := some {}, ratios := some [1],
    wid := 10, hei := 10 }

/-- C7 is refuted as stated: a `setopt.column_ratios` change invokes only the
bound handler `request_clear` (source line 53), so the panel set is NOT
rebuilt — while an actual `change_ratios` call on the same state would
replace it. -/
theorem c7_ratio_change_counterexample :
    ((onSetoptColumnRatios st7c [1]).columns = st7c.columns) ∧
    ((onSetoptColumnRatios st7c [1]).need_clear = true) ∧
    ((onSetoptColumnRatios st7c [1]).columns ≠
      (change_ratios (onSetoptColumnRatios st7c [1])).1.columns) := by decide

/-- C7 (amended): a change to the `column_ratios` option only requests a
clear — the panel set, pager and main-column reference are untouched; the
full perspective rebuild (destroy, then recreate one miller panel per
configured ratio) is performed by the separate `change_ratios` method when it
is invoked while the active perspective is miller. -/
theorem c7_ratio_change_amended (st : BrowserView) (v : List ℚ) :
    ((onSetoptColumnRatios st v).need_clear = true) ∧
    ((onSetoptColumnRatios st v).columns = st.columns) ∧
    ((onSetoptColumnRatios st v).pager = st.pager) ∧
    ((onSetoptColumnRatios st v).main_column = st.main_column) ∧
    (st.settings.perspective = "miller" →
      (change_ratios (onSetoptColumnRatios st v)).1.columns.length = v.length) := by
  refine ⟨rfl, rfl, rfl, rfl, ?_⟩
  intro hm
  have hpersp : (onSetoptColumnRatios st v).settings.perspective = "miller" := hm
  unfold change_ratios
  rw [if_pos hpersp]
  unfold create_perspective
  dsimp only
  have h1 : (if ALLOWED_PERSPECTIVES.contains "miller" = true then "miller" else "miller") =
      "miller" := by decide
  rw [h1, if_pos rfl]
  rw [create_miller_cols_length]
  rfl

/-- C7 witness: applying the amended statement at a concrete miller state. -/
def st7w : BrowserView :=
  { settings := { perspective := "miller" }, wid := 10, hei := 10 }

theorem c7_ratio_change_amended_witness :
    (change_ratios (onSetoptColumnRatios st7w [1, 1])).1.columns.length = 2 :=
  (c7_ratio_change_amended st7w [1, 1]).2.2.2.2 rfl

/-! ### C8 -/

theorem resize_preserves_refs (s : BrowserView) (y x hei wid : Int) :
    (resize s y x hei wid).1.main_column = s.main_column ∧
    (resize s y x hei wid).1.ratios = s.ratios ∧
    (resize s y x hei wid).1.stretch_ratios = s.stretch_ratios ∧
    (resize s y x hei wid).1.settings = s.settings := by
  unfold resize _resize_miller _resize_long _resize_dual
  dsimp only
  repeat' split
  all_goals exact ⟨rfl, rfl, rfl, rfl⟩

theorem resize_eq_miller (s : BrowserView) (h : s.settings.perspective = "miller")
    (y x hei wid : Int) :
    resize s y x hei wid =
      _resize_miller { s with y := y, x := x, hei := hei, wid := wid } y x hei wid := by
  unfold resize
  dsimp only
  rw [h]
  have h1 : (if ALLOWED_PERSPECTIVES.contains "miller" = true then "miller" else "miller") =
      "miller" := by decide
  rw [h1, if_pos rfl]

/-- The two designation flags of a column. -/
def mainFlagsOf (c : Column) : Bool × Bool := (c.mainColumn, c.displayInfostring)

theorem millerLoop_get_mainFlags (lastI pad hei W : Int) :
    ∀ (gen : List ℚ) (i left : Int) (cols : List Column) (pg : Option Pager) (j : Nat),
      (((millerLoop lastI pad hei W gen i left cols pg).cols[j]?).map mainFlagsOf) =
        ((cols[j]?).map mainFlagsOf) := by
  intro gen
  induction gen with
  | nil => intro _ _ _ _ _; rfl
  | cons r rest ih =>
    intro i left cols pg j
    simp only [millerLoop]
    split
    · rfl
    · cases cols with
      | nil => simp
      | cons c cs =>
        cases j with
        | zero => simp [mainFlagsOf]
        | succ n => simp [ih]

theorem resize_miller_main (s : BrowserView) (a b h w : Int) :
    (_resize_miller s a b h w).1.main_column = s.main_column := by
  unfold _resize_miller
  split <;> rfl

theorem resize_miller_get_mainFlags (s : BrowserView) (a b h w : Int) (j : Nat) :
    (((_resize_miller s a b h w).1.columns[j]?).map mainFlagsOf) =
      ((s.columns[j]?).map mainFlagsOf) := by
  unfold _resize_miller
  split
  · rfl
  · simp [millerLoop_get_mainFlags]

theorem setMainFlags_get_self : ∀ (cols : List Column) (i : Nat), i < cols.length →
    ((setMainFlags cols i)[i]?).map mainFlagsOf = some (true, true) := by
  intro cols
  induction cols with
  | nil =>
    intro i hlt
    exact absurd hlt (by simp)
  | cons c cs ih =>
    intro i hlt
    cases i with
    | zero => simp [setMainFlags, mainFlagsOf]
    | succ n =>
      simp only [setMainFlags, List.getElem?_cons_succ]
      exact ih n (by simpa using hlt)

theorem millerPreState_refs (st : BrowserView) :
    (millerPreState st).settings = st.settings ∧
    (millerPreState st).ratios = some (normalizeRatios st.settings.column_ratios) ∧
    (millerPreState st).pager = some {} ∧
    (millerPreState st).preview = st.preview ∧
    (millerPreState st).y = st.y ∧ (millerPreState st).x = st.x ∧
    (millerPreState st).hei = st.hei ∧ (millerPreState st).wid = st.wid := by
  unfold millerPreState
  dsimp only
  split
  · exact ⟨rfl, rfl, rfl, rfl, rfl, rfl, rfl, rfl⟩
  · exact ⟨rfl, rfl, rfl, rfl, rfl, rfl, rfl, rfl⟩

theorem millerPreState_stretch (st : BrowserView) :
    (millerPreState st).stretch_ratios =
      (if 2 ≤ (normalizeRatios st.settings.column_ratios).length then
        some (stretchOf (normalizeRatios st.settings.column_ratios))
       else st.stretch_ratios) := by
  unfold millerPreState
  dsimp only
  split
  · rfl
  · rfl

theorem millerPreState_zero (st : BrowserView) (h : st.settings.column_ratios = []) :
    (millerPreState st).columns = [] ∧ (millerPreState st).main_column = none := by
  unfold millerPreState
  dsimp only
  rw [h]
  simp [normalizeRatios]

theorem millerPreState_main_preview (st : BrowserView) (hpv : st.preview = true)
    (h2 : 2 ≤ st.settings.column_ratios.length) :
    (millerPreState st).main_column = some (st.settings.column_ratios.length - 2) ∧
    (((millerPreState st).columns[st.settings.column_ratios.length - 2]?).map
      mainFlagsOf) = some (true, true) := by
  unfold millerPreState
  dsimp only
  simp only [hpv, if_true, List.length_map, List.length_range]
  rw [if_pos h2]
  refine ⟨rfl, ?_⟩
  refine setMainFlags_get_self _ _ ?_
  simp only [List.length_map, List.length_range]
  omega

theorem millerPreState_main_nopreview (st : BrowserView) (hpv : st.preview = false)
    (h1 : 1 ≤ st.settings.column_ratios.length) :
    (millerPreState st).main_column = some (st.settings.column_ratios.length - 1) ∧
    (((millerPreState st).columns[st.settings.column_ratios.length - 1]?).map
      mainFlagsOf) = some (true, true) := by
  unfold millerPreState
  dsimp only
  simp only [hpv, Bool.false_eq_true, if_false, List.length_map, List.length_range]
  rw [if_pos h1]
  refine ⟨rfl, ?_⟩
  refine setMainFlags_get_self _ _ ?_
  simp only [List.length_map, List.length_range]
  omega

theorem collapse_false_of_nil (st : BrowserView) (h : st.columns = []) :
    _collapse st = false := by
  simp [_collapse, h]

theorem resize_miller_nil (s : BrowserView) (a b h w : Int)
    (hc : s.columns = []) (hr : s.ratios = some []) :
    (_resize_miller s a b h w).2 = none ∧
    (_resize_miller s a b h w).1.columns = [] ∧
    (_resize_miller s a b h w).1.main_column = s.main_column := by
  unfold _resize_miller
  rw [hr]
  simp [millerGen, collapse_false_of_nil s hc, millerLoop, hc]

/-- C8: miller construction designates as main column the second-to-last
panel when a preview pane is enabled (index `count - 2`) and the last panel
otherwise (index `count - 1`), marking it for extended info display
(`main_column`/`display_infostring` flags); and a construction with zero
configured ratios completes, resize included, without raising, yielding an
empty panel set and a null main-column reference. -/
theorem c8_main_column (st : BrowserView) (hpersp : st.settings.perspective = "miller") :
    (st.settings.column_ratios = [] →
      (_create_perspective_miller st).2 = none ∧
      (_create_perspective_miller st).1.columns = [] ∧
      (_create_perspective_miller st).1.main_column = none) ∧
    (st.preview = true → 2 ≤ st.settings.column_ratios.length →
      (_create_perspective_miller st).1.main_column =
        some (st.settings.column_ratios.length - 2) ∧
      (((_create_perspective_miller st).1.columns[st.settings.column_ratios.length - 2]?).map
        mainFlagsOf) = some (true, true)) ∧
    (st.preview = false → 1 ≤ st.settings.column_ratios.length →
      (_create_perspective_miller st).1.main_column =
        some (st.settings.column_ratios.length - 1) ∧
      (((_create_perspective_miller st).1.columns[st.settings.column_ratios.length - 1]?).map
        mainFlagsOf) = some (true, true)) := by
  have hps : (millerPreState st).settings.perspective = "miller" := by
    rw [(millerPreState_refs st).1, hpersp]
  have hcreate : _create_perspective_miller st =
      _resize_miller (millerPreState st) (millerPreState st).y (millerPreState st).x
        (millerPreState st).hei (millerPreState st).wid := by
    unfold _create_perspective_miller
    dsimp only
    rw [resize_eq_miller _ hps]
  refine ⟨?_, ?_, ?_⟩
  · intro h0
    have hz := millerPreState_zero st h0
    have hrat : (millerPreState st).ratios = some [] := by
      rw [(millerPreState_refs st).2.1, h0]
      rfl
    rw [hcreate]
    have hres := resize_miller_nil (millerPreState st) (millerPreState st).y
      (millerPreState st).x (millerPreState st).hei (millerPreState st).wid hz.1 hrat
    exact ⟨hres.1, hres.2.1, hres.2.2.trans hz.2⟩
  · intro hpv h2
    have hm := millerPreState_main_preview st hpv h2
    rw [hcreate]
    constructor
    · rw [resize_miller_main]
      exact hm.1
    · rw [resize_miller_get_mainFlags]
      exact hm.2
  · intro hpv h1
    have hm := millerPreState_main_nopreview st hpv h1
    rw [hcreate]
    constructor
    · rw [resize_miller_main]
      exact hm.1
    · rw [resize_miller_get_mainFlags]
      exact hm.2

/-- C8 witness state: two ratios, preview enabled, miller perspective. -/
def st8w : BrowserView :=
  { settings := { perspective := "miller", column_ratios := [1, 1] }, preview := true }

/-- Witness for C8: the main column of a two-ratio preview-enabled
construction is the second-to-last panel (index 0), marked with both flags. -/
theorem c8_main_column_witness :
    (_create_perspective_miller st8w).1.main_column = some 0 ∧
    (((_create_perspective_miller st8w).1.columns[0]?).map mainFlagsOf) =
      some (true, true) :=
  (c8_main_column st8w rfl).2.1 rfl (by decide)

/-! ### C4 -/

theorem sum_map_div (l : List ℚ) (d : ℚ) :
    (l.map (fun v => v / d)).sum = l.sum / d := by
  induction l with
  | nil => simp
  | cons a t ih => simp [ih, add_div]

theorem normalizeRatios_sum (rs : List ℚ) (hne : rs ≠ []) (hpos : ∀ r ∈ rs, 0 < r) :
    (normalizeRatios rs).sum = 1 := by
  have hs : 0 < rs.sum := List.sum_pos rs hpos hne
  unfold normalizeRatios
  rw [sum_map_div]
  exact div_self (ne_of_gt hs)

theorem create_miller_refs (st : BrowserView) :
    (_create_perspective_miller st).1.ratios = (millerPreState st).ratios ∧
    (_create_perspective_miller st).1.stretch_ratios = (millerPreState st).stretch_ratios := by
  unfold _create_perspective_miller
  dsimp only
  exact ⟨(resize_preserves_refs _ _ _ _ _).2.1, (resize_preserves_refs _ _ _ _ _).2.2.1⟩

/-- The rational one half, in normal form so that its numerator and
denominator evaluate by kernel reduction. -/
def oneHalf : ℚ := Rat.mk' 1 2 (by decide) (Nat.coprime_one_left 2)

/-- C4 counterexample state: a miller view carrying a stretch variant left
over from an earlier two-ratio configuration, now being rebuilt with the
single configured ratio `[1]` (all entries positive). -/
def st4c : BrowserView :=
  { settings := { perspective := "miller", column_ratios := [1],
                  collapse_preview := false },
    stretch_ratios := some [oneHalf, oneHalf], pager := some {} }

/-- C4 is refuted as stated: after a miller construction from a one-ratio
configuration the stored ratio set has length 1, yet a stretch variant still
exists (the stale one is not cleared), so "a stretch variant exists exactly
when the sequence has length at least 2" fails. -/
theorem c4_ratioset_counterexample :
    ((_create_perspective_miller st4c).1.stretch_ratios.isSome = true) ∧
    (((_create_perspective_miller st4c).1.ratios.getD []).length = 1) ∧
    ¬ 2 ≤ ((_create_perspective_miller st4c).1.ratios.getD []).length := by decide

/-- C4 (amended): for every non-empty configured ratio sequence with positive
entries, miller construction normalizes it so the stored ratio set sums to
exactly 1; the stretch variant is (re)computed — normalized ratios with the
last two replaced by `(r[-2] + 0.9*r[-1], 0.1*r[-1])` — when the sequence has
length at least 2, and is otherwise left at its previous value, so it exists
exactly when the length is at least 2 only from a state with no prior stretch
variant (as at first construction). -/
theorem c4_ratioset_amended (st : BrowserView) (rs : List ℚ)
    (hrs : st.settings.column_ratios = rs) (hne : rs ≠ []) (hpos : ∀ r ∈ rs, 0 < r) :
    ((_create_perspective_miller st).1.ratios = some (normalizeRatios rs)) ∧
    ((normalizeRatios rs).sum = 1) ∧
    (2 ≤ rs.length →
      (_create_perspective_miller st).1.stretch_ratios =
        some (stretchOf (normalizeRatios rs))) ∧
    (rs.length < 2 →
      (_create_perspective_miller st).1.stretch_ratios = st.stretch_ratios) ∧
    (st.stretch_ratios = none →
      ((_create_perspective_miller st).1.stretch_ratios.isSome = true ↔ 2 ≤ rs.length)) := by
  have hlen : (normalizeRatios rs).length = rs.length := by simp [normalizeRatios]
  have hr1 := (create_miller_refs st).1
  have hr2 := (create_miller_refs st).2
  have hpre := (millerPreState_refs st).2.1
  have hstretch : (_create_perspective_miller st).1.stretch_ratios =
      (if 2 ≤ (normalizeRatios rs).length then some (stretchOf (normalizeRatios rs))
       else st.stretch_ratios) := by
    rw [hr2, millerPreState_stretch, hrs]
  refine ⟨?_, normalizeRatios_sum rs hne hpos, ?_, ?_, ?_⟩
  · rw [hr1, hpre, hrs]
  · intro h2
    rw [hstretch, if_pos (by rw [hlen]; exact h2)]
  · intro hlt
    rw [hstretch, if_neg (by rw [hlen]; omega)]
  · intro hnone
    constructor
    · intro hsome
      by_contra hlt
      rw [hstretch, if_neg (by rw [hlen]; omega), hnone] at hsome
      exact Bool.noConfusion hsome
    · intro h2
      rw [hstretch, if_pos (by rw [hlen]; exact h2)]
      rfl

/-- C4 witness state: a fresh miller view with two equal configured ratios. -/
def st4w : BrowserView :=
  { settings := { perspective := "miller", column_ratios := [1, 1] } }

/-- Witness for the amended C4: the stored ratio set of a `[1, 1]`
construction sums to exactly 1 and the stretch variant exists. -/
theorem c4_ratioset_amended_witness :
    ((_create_perspective_miller st4w).1.ratios = some (normalizeRatios [1, 1])) ∧
    ((normalizeRatios [1, 1]).sum = 1) ∧
    ((_create_perspective_miller st4w).1.stretch_ratios =
      some (stretchOf (normalizeRatios [1, 1]))) :=
  ⟨(c4_ratioset_amended st4w [1, 1] rfl (by decide) (by norm_num)).1,
   (c4_ratioset_amended st4w [1, 1] rfl (by decide) (by norm_num)).2.1,
   (c4_ratioset_amended st4w [1, 1] rfl (by decide) (by norm_num)).2.2.1 (by decide)⟩

/-! ### C9 -/

theorem keyLtb_asymm : ∀ a b : List Char, keyLtb a b = true → keyLtb b a = false := by
  intro a
  induction a with
  | nil =>
    intro b h
    cases b with
    | nil => exact absurd h (by simp [keyLtb])
    | cons y ys => simp [keyLtb]
  | cons x xs ih =>
    intro b h
    cases b with
    | nil => exact absurd h (by simp [keyLtb])
    | cons y ys =>
      by_cases hxy : x < y
      · have hyx : ¬ y < x := lt_asymm hxy
        simp [keyLtb, hxy, hyx]
      · by_cases hyx : y < x
        · rw [keyLtb, if_neg hxy, if_pos hyx] at h
          exact absurd h (by simp)
        · rw [keyLtb, if_neg hxy, if_neg hyx] at h
          rw [keyLtb, if_neg hyx, if_neg hxy]
          exact ih ys h

theorem chain_bkInsert (x : String × String) :
    ∀ l : List (String × String),
      List.Chain' (fun a b => keyLe a b = true) l →
      List.Chain' (fun a b => keyLe a b = true) (bkInsert x l) := by
  intro l
  induction l with
  | nil =>
    intro _
    simp [bkInsert]
  | cons y ys ih =>
    intro h
    rw [bkInsert]
    split
    next hlt =>
      refine List.Chain'.cons ?_ h
      show keyLe x y = true
      simp [keyLe, keyLtb_asymm _ _ hlt]
    next hnlt =>
      have hyx : keyLe y x = true := by
        simp only [keyLe, Bool.not_eq_true']
        exact Bool.of_not_eq_true hnlt
      have htail : List.Chain' (fun a b => keyLe a b = true) (bkInsert x ys) :=
        ih (List.Chain'.tail h)
      cases ys with
      | nil => exact List.chain'_pair.mpr hyx
      | cons z zs =>
        rw [bkInsert]
        rw [bkInsert] at htail
        split
        next hlt2 =>
          rw [if_pos hlt2] at htail
          exact List.Chain'.cons hyx htail
        next hnlt2 =>
          rw [if_neg hnlt2] at htail
          have hyz : keyLe y z = true := List.chain'_cons.mp h |>.1
          exact List.Chain'.cons hyz htail

theorem chain_pysorted (l : List (String × String)) :
    List.Chain' (fun a b => keyLe a b = true) (pysorted l) := by
  unfold pysorted
  induction l with
  | nil => simp
  | cons a t ih => exact chain_bkInsert a _ ih

theorem mem_bkInsert (e x : String × String) :
    ∀ l : List (String × String), e ∈ bkInsert x l ↔ e = x ∨ e ∈ l := by
  intro l
  induction l with
  | nil => simp [bkInsert]
  | cons y ys ih =>
    rw [bkInsert]
    split
    · simp
    · simp only [List.mem_cons, ih]
      tauto

theorem mem_pysorted (e : String × String) :
    ∀ l : List (String × String), e ∈ pysorted l ↔ e ∈ l := by
  intro l
  unfold pysorted
  induction l with
  | nil => simp
  | cons a t ih =>
    simp only [List.foldr_cons, List.mem_cons, mem_bkInsert, ih]

theorem map_snd_zip_eq_take {α β : Type} :
    ∀ (l1 : List α) (l2 : List β), (l1.zip l2).map Prod.snd = l2.take l1.length := by
  intro l1
  induction l1 with
  | nil => intro l2; simp
  | cons a as ih =>
    intro l2
    cases l2 with
    | nil => simp
    | cons b bs => simp [ih]

/-- C9 concrete state: hidden bookmarks excluded. -/
def st9a : BrowserView :=
  { settings := { show_hidden_bookmarks := false },
    bookmarks := [("b", "/.hidden/y"), ("a", "/x")], hei := 10, wid := 40 }

/-- C9 concrete state: hidden bookmarks included. -/
def st9b : BrowserView :=
  { settings := { show_hidden_bookmarks := true },
    bookmarks := [("b", "/.hidden/y"), ("a", "/x")], hei := 10, wid := 40 }

/-- C9: the bookmark overlay renders the bookmark collection sorted by key,
excluding every entry whose path contains the hidden-segment marker `/.`
unless `show_hidden_bookmarks` is set; when the filtered collection is empty
nothing is drawn.  With bookmarks a: /x and b: /.hidden/y, the flag off
renders only a, and the flag on renders both in key order. -/
theorem c9_bookmark_overlay :
    (∀ st : BrowserView,
      List.Chain' (fun a b => keyLe a b = true) (sortedBookmarks st)) ∧
    (∀ (st : BrowserView) (e : String × String),
      e ∈ sortedBookmarks st ↔
        e ∈ st.bookmarks ∧
          (st.settings.show_hidden_bookmarks = true ∨ hasHiddenMarker e.2 = false)) ∧
    (∀ st : BrowserView, (sortedBookmarks st).length ≤ (st.hei - 1).toNat →
      (bookmarkRows st).map Prod.snd = sortedBookmarks st) ∧
    (∀ st : BrowserView, sortedBookmarks st = [] → (_draw_bookmarks st).2 = []) ∧
    ((bookmarkRows st9a).map Prod.snd = [("a", "/x")]) ∧
    ((bookmarkRows st9b).map Prod.snd = [("a", "/x"), ("b", "/.hidden/y")]) := by
  refine ⟨?_, ?_, ?_, ?_, by decide, by decide⟩
  · intro st
    exact chain_pysorted _
  · intro st e
    unfold sortedBookmarks
    rw [mem_pysorted, List.mem_filter]
    constructor
    · rintro ⟨hmem, hflag⟩
      refine ⟨hmem, ?_⟩
      rcases Bool.or_eq_true _ _ |>.mp hflag with h | h
      · exact Or.inl h
      · exact Or.inr (Bool.not_eq_true' .. |>.mp h)
    · rintro ⟨hmem, hflag⟩
      refine ⟨hmem, ?_⟩
      rcases hflag with h | h
      · simp [h]
      · simp [h]
  · intro st hfit
    unfold bookmarkRows
    rw [map_snd_zip_eq_take, List.length_range]
    exact List.take_of_length_le hfit
  · intro st h
    have hrows : bookmarkRows st = [] := by
      simp [bookmarkRows, h]
    simp [_draw_bookmarks, hrows]

/-- Witness for C9: the rendered rows of the flag-on state are exactly the
sorted filtered collection. -/
theorem c9_bookmark_overlay_witness :
    (bookmarkRows st9b).map Prod.snd = sortedBookmarks st9b :=
  c9_bookmark_overlay.2.2.1 st9b (by decide)

/-! ### C1 -/

theorem millerLoop_cons_eq (lastI pad hei W : Int) (r : ℚ) (rest : List ℚ)
    (i left : Int) (c : Column) (cs : List Column) (p : Pager) :
    millerLoop lastI pad hei W (r :: rest) i left (c :: cs) (some p) =
      ⟨{ c with y := pad, x := left, hei := hei - pad * 2, wid := max 1 ((if i = lastI then W - left + 1 - pad else preWid W r) - 1) } ::
        (millerLoop lastI pad hei W rest (i + 1)
          (left + (if i = lastI then W - left + 1 - pad else preWid W r)) cs
          (if i = lastI - 1 then
            some { p with y := pad, x := left, hei := hei - pad * 2, wid := max 1 (W - left - pad) }
           else some p)).cols,
       (millerLoop lastI pad hei W rest (i + 1)
          (left + (if i = lastI then W - left + 1 - pad else preWid W r)) cs
          (if i = lastI - 1 then
            some { p with y := pad, x := left, hei := hei - pad * 2, wid := max 1 (W - left - pad) }
           else some p)).pg,
       (millerLoop lastI pad hei W rest (i + 1)
          (left + (if i = lastI then W - left + 1 - pad else preWid W r)) cs
          (if i = lastI - 1 then
            some { p with y := pad, x := left, hei := hei - pad * 2, wid := max 1 (W - left - pad) }
           else some p)).left,
       (millerLoop lastI pad hei W rest (i + 1)
          (left + (if i = lastI then W - left + 1 - pad else preWid W r)) cs
          (if i = lastI - 1 then
            some { p with y := pad, x := left, hei := hei - pad * 2, wid := max 1 (W - left - pad) }
           else some p)).err⟩ := by
  simp only [millerLoop]
  rw [if_neg (by simp)]
  rfl

theorem millerLoop_tiling (pad hei W : Int) :
    ∀ (gen : List ℚ) (i left lastI : Int) (cols : List Column) (p : Pager),
      gen ≠ [] →
      lastI = i + (gen.length : Int) - 1 →
      cols.length = gen.length →
      (∀ j : Nat, (j : Int) + 1 < (gen.length : Int) → 2 ≤ preWid W (gen.getD j 0)) →
      2 ≤ W - (left + ((gen.dropLast).map (preWid W)).sum) + 1 - pad →
      (millerLoop lastI pad hei W gen i left cols (some p)).err = none ∧
      (millerLoop lastI pad hei W gen i left cols (some p)).left = W + 1 - pad ∧
      ((millerLoop lastI pad hei W gen i left cols (some p)).cols.map
        (fun c => c.wid)).sum = W + 1 - pad - left - (gen.length : Int) := by
  intro gen
  induction gen with
  | nil =>
    intro i left lastI cols p hne
    exact absurd rfl hne
  | cons r rest ih =>
    intro i left lastI cols p hne hlast hlen hwid hlastw
    cases cols with
    | nil => exact absurd hlen (by simp)
    | cons c cs =>
      have hlen' : cs.length = rest.length := by simpa using hlen
      cases rest with
      | nil =>
        have hi : i = lastI := by
          simp only [List.length_cons, List.length_nil] at hlast
          push_cast at hlast
          omega
        have hcs : cs = [] := List.length_eq_zero.mp (by simpa using hlen')
        subst hcs
        have hlw : 2 ≤ W - left + 1 - pad := by
          simpa [List.dropLast] using hlastw
        rw [millerLoop_cons_eq, if_pos hi]
        have hnil : ∀ pgx, millerLoop lastI pad hei W [] (i + 1)
            (left + (W - left + 1 - pad)) ([] : List Column) pgx =
            ⟨[], pgx, left + (W - left + 1 - pad), none⟩ := by
          intro pgx
          rfl
        refine ⟨?_, ?_, ?_⟩
        · simp [hnil]
        · simp only [hnil]
          omega
        · simp only [hnil, List.map_cons, List.map_nil, List.sum_cons, List.sum_nil,
            List.length_cons, List.length_nil]
          have hmax : max 1 (W - left + 1 - pad - 1) = W - left + 1 - pad - 1 :=
            max_eq_right (by omega)
          rw [hmax]
          push_cast
          omega
      | cons r2 rest2 =>
        have hil : i ≠ lastI := by
          simp only [List.length_cons] at hlast
          push_cast at hlast
          omega
        have h0 : 2 ≤ preWid W r := by
          have := hwid 0 (by simp only [List.length_cons]; push_cast; omega)
          simpa using this
        rw [millerLoop_cons_eq, if_neg hil]
        have hpg : (if i = lastI - 1 then
            some { p with y := pad, x := left, hei := hei - pad * 2, wid := max 1 (W - left - pad) }
           else some p) =
            some (if i = lastI - 1 then
              { p with y := pad, x := left, hei := hei - pad * 2, wid := max 1 (W - left - pad) }
             else p) := by
          split <;> rfl
        rw [hpg]
        have hdrop : (r :: r2 :: rest2).dropLast = r :: (r2 :: rest2).dropLast := rfl
        rw [hdrop] at hlastw
        simp only [List.map_cons, List.sum_cons] at hlastw
        have hrec := ih (i + 1) (left + preWid W r) lastI cs
          (if i = lastI - 1 then
            { p with y := pad, x := left, hei := hei - pad * 2, wid := max 1 (W - left - pad) }
           else p)
          (by simp)
          (by simp only [List.length_cons] at hlast ⊢; push_cast at hlast ⊢; omega)
          (by simpa using hlen')
          (by
            intro j hj
            have hb : ((j + 1 : Nat) : Int) + 1 < ((r :: r2 :: rest2).length : Int) := by
              simp only [List.length_cons] at hj ⊢
              push_cast at hj ⊢
              omega
            have := hwid (j + 1) hb
            simpa using this)
          (by omega)
        refine ⟨?_, ?_, ?_⟩
        · simp only [hrec.1]
        · simp only [hrec.2.1]
        · simp only [List.map_cons, List.sum_cons, hrec.2.2]
          have hmax : max 1 (preWid W r - 1) = preWid W r - 1 :=
            max_eq_right (by omega)
          rw [hmax]
          simp only [List.length_cons]
          push_cast
          ring

/-- C1 (amended): whenever every pre-clamp width is at least 2 cells — that
is, `int(ratio * wid)` is at least 2 for each non-last ratio, and the
last-column override `wid - left + 1 - pad` is at least 2 — the miller layout
raises nothing and the assigned column widths plus the `n - 1` one-cell
separators plus the border padding on both sides exactly tile the viewport
width.  (On smaller viewports the `max(1, ...)` clamp breaks exact tiling,
see the counterexample.) -/
theorem c1_miller_tiling_amended (st : BrowserView) (y x hei w : Int)
    (rs gen : List ℚ) (p : Pager)
    (hr : st.ratios = some rs)
    (hg : gen = millerGen st rs)
    (hglen : gen.length = rs.length)
    (hne : rs ≠ [])
    (hpg : st.pager = some p)
    (hcols : st.columns.length = rs.length)
    (hwid : ∀ j : Nat, (j : Int) + 1 < (gen.length : Int) →
      2 ≤ preWid st.wid (gen.getD j 0))
    (hlastw : 2 ≤ st.wid - (padOf st + ((gen.dropLast).map (preWid st.wid)).sum)
      + 1 - padOf st) :
    ((_resize_miller st y x hei w).2 = none) ∧
    ((((_resize_miller st y x hei w).1.columns.map (fun c => c.wid)).sum)
      + ((rs.length : Int) - 1) + 2 * padOf st = st.wid) := by
  have hne' : gen ≠ [] := by
    intro h
    rw [h] at hglen
    exact hne (List.length_eq_zero.mp hglen.symm)
  have htile := millerLoop_tiling (padOf st) hei st.wid gen 0 (padOf st)
    ((rs.length : Int) - 1) st.columns p hne'
    (by rw [hglen]; ring)
    (by rw [hcols, hglen])
    hwid hlastw
  unfold _resize_miller
  rw [hr]
  dsimp only
  rw [hpg, ← hg]
  refine ⟨htile.1, ?_⟩
  have hsum := htile.2.2
  rw [hglen] at hsum
  rw [hsum]
  ring

/-- C1 counterexample state: viewport width 3 with two half ratios — the
first column's pre-clamp width is `int(0.5 * 3) - 1 = 0`, clamped to 1. -/
def st1c : BrowserView :=
  { settings := { perspective := "miller", collapse_preview := false },
    ratios := some [oneHalf, oneHalf], pager := some {}, columns := [{}, {}],
    wid := 3, hei := 10 }

/-- C1 is refuted as stated: on a viewport of width 3 with ratios (1/2, 1/2)
and no borders the assigned widths are 1 and 2, and together with the single
separator they cover 4 cells, overflowing the 3-cell viewport — the layout
does not tile exactly for every viewport width. -/
theorem c1_miller_tiling_counterexample :
    ¬ ((((_resize_miller st1c 0 0 10 3).1.columns.map (fun c => c.wid)).sum)
        + ((2 : Int) - 1) + 2 * padOf st1c = st1c.wid) := by decide

/-- C1 witness state: viewport width 10 with two half ratios. -/
def st1w : BrowserView :=
  { settings := { perspective := "miller", collapse_preview := false },
    ratios := some [oneHalf, oneHalf], pager := some {}, columns := [{}, {}],
    wid := 10, hei := 10 }

/-- Witness for the amended C1 at viewport width 10 and ratios (1/2, 1/2). -/
theorem c1_miller_tiling_witness :
    ((_resize_miller st1w 0 0 10 10).2 = none) ∧
    ((((_resize_miller st1w 0 0 10 10).1.columns.map (fun c => c.wid)).sum)
      + ((([oneHalf, oneHalf] : List ℚ).length : Int) - 1) + 2 * padOf st1w = st1w.wid) :=
  c1_miller_tiling_amended st1w 0 0 10 10 [oneHalf, oneHalf]
    (millerGen st1w [oneHalf, oneHalf]) {}
    rfl rfl (by decide) (by decide) rfl (by decide)
    (by
      intro j hj
      have hlen : ((millerGen st1w [oneHalf, oneHalf]).length : Int) = 2 := by decide
      have hj0 : j = 0 := by
        rw [hlen] at hj
        omega
      subst hj0
      decide)
    (by decide)

end Ranger
